import Mathlib

/-!
Verification of the Australia postcode lookup service
(`postcode_scraper.go`) against its specification.

The development is a shallow embedding of the program:

* `goIsSpace`, `goTrimSpace`, `goToLower`, `goSplit` embed the Go
  standard-library string operations the program uses
  (`unicode.IsSpace`-based `strings.TrimSpace`, `strings.ToLower`,
  `strings.Split(s, ",")`).
* `parseRow` and `extractRecords` embed the body of the
  `doc.Find(selector + " tr").Each(...)` loop of `searchPostcodes`:
  `extractRecords` receives the list of `<tr>` rows matched by the
  selector, each row given as the list of the text contents of its
  `<td>` cells, skips the row at index 0 and parses the rest.
* `escapeChar` / `quoteJSON` / `marshalRecord` / `marshalIndentResults`
  embed `json.MarshalIndent(resultsList, "", "    ")` for the
  `PostcodeResult` slice, including `encoding/json` string escaping
  with HTML escaping enabled (the `Marshal` default).
* `FetchResult` models the outcome of the outbound HTTP request and
  the goquery HTML parse: request construction failure, transport
  failure, or a response with a status code and a parsed document.
  The parsed document is abstracted to the selector's row list, which
  is the only part of it the program reads.
* `searchPostcodes` embeds the function of the same name: it returns
  the JSON output string the Go function returns.  The early
  empty-keyword return is factored as the guard around
  `afterKeywordCheck` so that "extraction proceeds" is expressible.
  The `log.Printf` calls, the URL actually being fetched, the 10s
  client timeout and the final `json.MarshalIndent` error branch
  (unreachable for this struct type) are side effects or dead code
  and are not modelled; `targetURL` embeds the URL construction.
* `postcodeHandler` embeds the handler of the same name: the
  `keyword` query parameter is an `Option String` (Go's
  `Query().Get` maps an absent parameter to `""`), and the response
  is its status code, body and whether `searchPostcodes` was called.
  The 500ms politeness sleep and the Content-Type header are side
  effects and are not modelled.  HTTP status codes are natural
  numbers; Go's `%d` on a non-negative `int` prints as `Nat.repr`.

Substring search (`strings.Contains`) is embedded at the character
level; the needles used by the program are ASCII, and in UTF-8 an
ASCII byte sequence occurs as a byte substring exactly when it occurs
as a character substring, so the embedding agrees with Go's
byte-level search.
-/

namespace PostcodeScraper

/-- Go `unicode.IsSpace`: the Unicode White_Space code points. -/
def goIsSpace (c : Char) : Bool :=
  let n := c.toNat
  (decide (9 ≤ n) && decide (n ≤ 13)) || decide (n = 32) ||
  decide (n = 0x85) || decide (n = 0xA0) || decide (n = 0x1680) ||
  (decide (0x2000 ≤ n) && decide (n ≤ 0x200A)) ||
  decide (n = 0x2028) || decide (n = 0x2029) || decide (n = 0x202F) ||
  decide (n = 0x205F) || decide (n = 0x3000)

/-- Go `strings.TrimSpace`: drop leading and trailing white space. -/
def goTrimSpace (s : String) : String :=
  ⟨((s.data.dropWhile goIsSpace).reverse.dropWhile goIsSpace).reverse⟩

/-- Go `strings.ToLower`, restricted to the ASCII letter mapping
(no claim depends on lower-casing non-ASCII letters). -/
def goToLower (s : String) : String :=
  ⟨s.data.map Char.toLower⟩

/-- Go `strings.Split (·) ","` on character lists.  `strings.Split`
with a non-empty separator never returns an empty slice: splitting
the empty string yields `[[]]`. -/
def goSplitCharsComma : List Char → List (List Char)
  | [] => [[]]
  | c :: rest =>
    match goSplitCharsComma rest with
    | [] => [[c]]
    | h :: t => if c = ',' then [] :: h :: t else (c :: h) :: t

/-- Go `strings.Split (·) ","` on strings. -/
def goSplit (s : String) : List String :=
  (goSplitCharsComma s.data).map (fun l => ⟨l⟩)

/-- Whether `needle` is an initial segment of the second list. -/
def startsWithChars : List Char → List Char → Bool
  | [], _ => true
  | _ :: _, [] => false
  | a :: as, b :: bs => a = b && startsWithChars as bs

/-- Whether `needle` occurs contiguously in the second list. -/
def hasSubChars (needle : List Char) : List Char → Bool
  | [] => startsWithChars needle []
  | c :: t => startsWithChars needle (c :: t) || hasSubChars needle t

/-- Go `strings.Contains s needle` (argument order: needle first). -/
def containsStr (needle s : String) : Bool :=
  hasSubChars needle.data s.data

/-- The record type of the scraper (`PostcodeResult` in the source,
with JSON keys `postcode`, `suburb`, `state`). -/
structure PostcodeResult where
  Postcode : String
  Suburb : String
  State : String
deriving DecidableEq

/-- Base URL for the Australia Post postcode search. -/
def BASE_URL : String := "https://auspost.com.au/postcode/"

/-- The target URL built by `searchPostcodes`:
`fmt.Sprintf("%s%s", BASE_URL, strings.ToLower(strings.TrimSpace(keyword)))`. -/
def targetURL (keyword : String) : String :=
  BASE_URL ++ goToLower (goTrimSpace keyword)

/-- The body of the `Each` callback for one non-header row, given the
text contents of the row's `<td>` cells: produce the record appended
to `resultsList`, or `none` when the row is skipped. -/
def parseRow (cells : List String) : Option PostcodeResult :=
  if 2 ≤ cells.length then
    let postcodeText := goTrimSpace (cells.getD 0 "")
    let fullSuburbText := goTrimSpace (cells.getD 1 "")
    let parts := goSplit fullSuburbText
    let suburb := goTrimSpace (parts.getD 0 "")
    let state := if 2 ≤ parts.length then goTrimSpace (parts.getD 1 "") else ""
    if postcodeText ≠ "" ∧ suburb ≠ "" then
      some ⟨postcodeText, suburb, state⟩
    else none
  else none

/-- The whole row loop: the row at index 0 (the header row) is
skipped, every other row goes through `parseRow`. -/
def extractRecords (rows : List (List String)) : List PostcodeResult :=
  match rows with
  | [] => []
  | _header :: rest => rest.filterMap parseRow

/-- Lower-case hexadecimal digit, as used by `encoding/json`. -/
def hexDigit (n : Nat) : Char :=
  if n < 10 then Char.ofNat (48 + n) else Char.ofNat (87 + n)

/-- `encoding/json` escaping of one character inside a JSON string
(HTML escaping enabled, the default for `json.Marshal`). -/
def escapeChar (c : Char) : List Char :=
  if c = '"' then ['\\', '"']
  else if c = '\\' then ['\\', '\\']
  else if c = '<' then ['\\', 'u', '0', '0', '3', 'c']
  else if c = '>' then ['\\', 'u', '0', '0', '3', 'e']
  else if c = '&' then ['\\', 'u', '0', '0', '2', '6']
  else if c = '\n' then ['\\', 'n']
  else if c = '\r' then ['\\', 'r']
  else if c = '\t' then ['\\', 't']
  else if c.toNat < 32 then
    ['\\', 'u', '0', '0', hexDigit (c.toNat / 16), hexDigit (c.toNat % 16)]
  else if c.toNat = 0x2028 then ['\\', 'u', '2', '0', '2', '8']
  else if c.toNat = 0x2029 then ['\\', 'u', '2', '0', '2', '9']
  else [c]

/-- A JSON string literal for `s`, with `encoding/json` escaping. -/
def quoteJSON (s : String) : String :=
  ⟨'"' :: (s.data.map escapeChar).flatten ++ ['"']⟩

/-- One record as `json.MarshalIndent` prints it inside the array
(prefix `""`, indent four spaces; `json.Indent` puts a space after
each object colon). -/
def marshalRecord (r : PostcodeResult) : String :=
  "\x7b\n        \"postcode\": " ++ quoteJSON r.Postcode ++
  ",\n        \"suburb\": " ++ quoteJSON r.Suburb ++
  ",\n        \"state\": " ++ quoteJSON r.State ++ "\n    \x7d"

/-- `json.MarshalIndent(resultsList, "", "    ")` for the whole
record slice. -/
def marshalIndentResults (rs : List PostcodeResult) : String :=
  match rs with
  | [] => "[]"
  | r :: rest =>
    "[\n    " ++ String.intercalate ",\n    " ((r :: rest).map marshalRecord) ++ "\n]"

/-- Outcome of `goquery.NewDocumentFromReader` on the response body,
abstracted to the list of `<tr>` rows matched by the results-table
selector (each row as the text of its `<td>` cells), the only part
of the document the program reads. -/
inductive HTMLParse where
  | parseFailed (errMsg : String)
  | parsed (rows : List (List String))
deriving DecidableEq

/-- Outcome of the outbound fetch in `searchPostcodes`:
`http.NewRequest` failure, `client.Do` failure, or a response with
its status code and body. -/
inductive FetchResult where
  | newRequestFailed (errMsg : String)
  | doFailed (errMsg : String)
  | response (statusCode : Nat) (doc : HTMLParse)
deriving DecidableEq

/-- The no-results body:
`fmt.Sprintf` of `No postcodes found for keyword '%s'. ...` with the
raw (untrimmed, un-lowercased) keyword. -/
def noResultsMessage (keyword : String) : String :=
  "\x7b\"message\": \"No postcodes found for keyword '" ++ keyword ++
  "'. Please verify the CSS selectors.\"\x7d"

/-- The early-return body of `searchPostcodes` for an empty keyword. -/
def emptyKeywordError : String :=
  "\x7b\"error\": \"Keyword cannot be empty.\"\x7d"

/-- `searchPostcodes` after its empty-keyword guard: map the fetch
outcome to the returned JSON string. -/
def afterKeywordCheck (keyword : String) (fetch : FetchResult) : String :=
  match fetch with
  | .newRequestFailed e =>
    "\x7b\"error\": \"Failed to create request: " ++ e ++ "\"\x7d"
  | .doFailed e =>
    "\x7b\"error\": \"Failed to fetch the page: " ++ e ++ "\"\x7d"
  | .response statusCode doc =>
    if statusCode ≠ 200 then
      "\x7b\"error\": \"Received non-OK HTTP status: " ++ Nat.repr statusCode ++ "\"\x7d"
    else
      match doc with
      | .parseFailed e =>
        "\x7b\"error\": \"Failed to parse HTML: " ++ e ++ "\"\x7d"
      | .parsed rows =>
        let resultsList := extractRecords rows
        if resultsList = [] then noResultsMessage keyword
        else marshalIndentResults resultsList

/-- `searchPostcodes`: the JSON output string for a keyword, given
the fetch outcome. -/
def searchPostcodes (keyword : String) (fetch : FetchResult) : String :=
  if keyword = "" then emptyKeywordError
  else afterKeywordCheck keyword fetch

/-- The handler's observable response: status code, body, and whether
`searchPostcodes` was invoked. -/
structure HandlerResponse where
  status : Nat
  body : String
  extractorInvoked : Bool
deriving DecidableEq

/-- Body written for a missing or empty keyword:
`json.NewEncoder(w).Encode` of a one-key map (compact JSON followed
by a newline). -/
def missingKeywordBody : String :=
  "\x7b\"error\":\"Missing 'keyword' parameter in the query string. Example: /search?keyword=sydney\"\x7d\n"

/-- `postcodeHandler`: `queryKeyword` is the `keyword` query
parameter (`none` when absent; Go's `Query().Get` then yields `""`). -/
def postcodeHandler (queryKeyword : Option String) (fetch : FetchResult) : HandlerResponse :=
  let keyword := queryKeyword.getD ""
  if keyword = "" then
    ⟨400, missingKeywordBody, false⟩
  else
    let jsonOutput := searchPostcodes keyword fetch
    ⟨if containsStr "\"error\"" jsonOutput || containsStr "\"message\"" jsonOutput
      then 500 else 200,
     jsonOutput, true⟩

/-- A fetch outcome on which the extraction succeeds with at least
one record: HTTP 200, HTML parsed, and a non-empty record list. -/
def extractionSucceeded (fetch : FetchResult) : Prop :=
  ∃ rows, fetch = .response 200 (.parsed rows) ∧ extractRecords rows ≠ []

/-- Text of a cell before its first comma (the whole text when there
is no comma).  Spec-side definition, used to state the row-splitting
claims in the specification's own vocabulary. -/
def textUpToFirstComma (s : String) : String :=
  ⟨s.data.takeWhile (fun c => !(c = ','))⟩

/-- Text of a cell strictly after its first comma (empty when there
is no comma).  Spec-side definition. -/
def textAfterFirstComma (s : String) : String :=
  ⟨(s.data.dropWhile (fun c => !(c = ','))).tail⟩

theorem startsWithChars_nil (b : List Char) : startsWithChars [] b = true := by
  cases b <;> rfl

theorem startsWithChars_self (l : List Char) : startsWithChars l l = true := by
  induction l with
  | nil => rfl
  | cons c t ih => simp [startsWithChars, ih]

theorem startsWithChars_append (n a b : List Char)
    (h : startsWithChars n a = true) : startsWithChars n (a ++ b) = true := by
  induction n generalizing a with
  | nil => exact startsWithChars_nil _
  | cons c cs ih =>
    cases a with
    | nil => simp [startsWithChars] at h
    | cons d ds =>
      simp only [startsWithChars, Bool.and_eq_true, decide_eq_true_eq] at h
      simp only [List.cons_append, startsWithChars, Bool.and_eq_true, decide_eq_true_eq]
      exact ⟨h.1, ih ds h.2⟩

theorem hasSubChars_nil_left (b : List Char) : hasSubChars [] b = true := by
  cases b <;> simp [hasSubChars, startsWithChars_nil]

theorem hasSubChars_append_right (n a b : List Char)
    (h : hasSubChars n a = true) : hasSubChars n (a ++ b) = true := by
  induction a with
  | nil =>
    have hn : n = [] := by
      cases n with
      | nil => rfl
      | cons c cs => simp [hasSubChars, startsWithChars] at h
    subst hn
    exact hasSubChars_nil_left _
  | cons c t ih =>
    simp only [hasSubChars, Bool.or_eq_true] at h
    simp only [List.cons_append, hasSubChars, Bool.or_eq_true]
    rcases h with h | h
    · exact Or.inl (startsWithChars_append n (c :: t) b h)
    · exact Or.inr (ih h)

theorem hasSubChars_append_left (n a b : List Char)
    (h : hasSubChars n b = true) : hasSubChars n (a ++ b) = true := by
  induction a with
  | nil => exact h
  | cons c t ih =>
    simp only [List.cons_append, hasSubChars, Bool.or_eq_true]
    exact Or.inr ih

theorem containsStr_append_right (n a b : String) (h : containsStr n a = true) :
    containsStr n (a ++ b) = true := by
  unfold containsStr at h ⊢
  rw [String.data_append]
  exact hasSubChars_append_right _ _ _ h

theorem containsStr_append_left (n a b : String) (h : containsStr n b = true) :
    containsStr n (a ++ b) = true := by
  unfold containsStr at h ⊢
  rw [String.data_append]
  exact hasSubChars_append_left _ _ _ h

theorem containsStr_self (s : String) : containsStr s s = true := by
  unfold containsStr
  cases h : s.data with
  | nil => rfl
  | cons c t =>
    have := startsWithChars_self (c :: t)
    simp [hasSubChars, this]

theorem goSplitCharsComma_ne_nil (s : List Char) : goSplitCharsComma s ≠ [] := by
  cases s with
  | nil => simp [goSplitCharsComma]
  | cons c rest =>
    simp only [goSplitCharsComma]
    cases h : goSplitCharsComma rest with
    | nil => simp
    | cons a t => by_cases hc : c = ',' <;> simp [hc]

theorem goSplitCharsComma_head (s : List Char) :
    (goSplitCharsComma s).headD [] = s.takeWhile (fun c => !(c = ',')) := by
  induction s with
  | nil => rfl
  | cons c rest ih =>
    simp only [goSplitCharsComma]
    cases h : goSplitCharsComma rest with
    | nil => exact absurd h (goSplitCharsComma_ne_nil rest)
    | cons a t =>
      rw [h] at ih
      by_cases hc : c = ','
      · subst hc; simp [List.takeWhile_cons]
      · simp [hc, List.takeWhile_cons]
        simpa using ih

theorem goSplitCharsComma_two_le_iff (s : List Char) :
    2 ≤ (goSplitCharsComma s).length ↔ ',' ∈ s := by
  induction s with
  | nil => simp [goSplitCharsComma]
  | cons c rest ih =>
    simp only [goSplitCharsComma]
    cases h : goSplitCharsComma rest with
    | nil => exact absurd h (goSplitCharsComma_ne_nil rest)
    | cons a t =>
      rw [h] at ih
      by_cases hc : c = ','
      · subst hc
        simp only [eq_self_iff_true, if_true, List.length_cons, List.mem_cons, true_or,
          iff_true]
        omega
      · simp only [if_neg hc, List.length_cons, List.mem_cons]
        rw [List.length_cons] at ih
        constructor
        · intro hlen; exact Or.inr (ih.mp hlen)
        · intro hm
          rcases hm with hm | hm
          · exact absurd hm.symm hc
          · exact ih.mpr hm

theorem goSplitCharsComma_getD_one (s : List Char) :
    (goSplitCharsComma s).getD 1 [] =
      ((s.dropWhile (fun c => !(c = ','))).tail).takeWhile (fun c => !(c = ',')) := by
  induction s with
  | nil => rfl
  | cons c rest ih =>
    simp only [goSplitCharsComma]
    cases h : goSplitCharsComma rest with
    | nil => exact absurd h (goSplitCharsComma_ne_nil rest)
    | cons a t =>
      by_cases hc : c = ','
      · subst hc
        have hhead := goSplitCharsComma_head rest
        rw [h] at hhead
        simp only [List.headD_cons] at hhead
        simp [List.dropWhile_cons, hhead]
      · rw [h] at ih
        simpa [hc, List.dropWhile_cons] using ih

theorem goSplit_getD_zero (s : String) :
    (goSplit s).getD 0 "" = textUpToFirstComma s := by
  unfold goSplit textUpToFirstComma
  cases h : goSplitCharsComma s.data with
  | nil => exact absurd h (goSplitCharsComma_ne_nil s.data)
  | cons a t =>
    have hhead := goSplitCharsComma_head s.data
    rw [h] at hhead
    simp only [List.headD_cons] at hhead
    simp [hhead]

theorem goSplit_length_eq (s : String) :
    (goSplit s).length = (goSplitCharsComma s.data).length := by
  simp [goSplit]

theorem goSplit_getD_one (s : String) :
    (goSplit s).getD 1 "" = textUpToFirstComma (textAfterFirstComma s) := by
  unfold goSplit textUpToFirstComma textAfterFirstComma
  have hg := goSplitCharsComma_getD_one s.data
  cases h : goSplitCharsComma s.data with
  | nil => exact absurd h (goSplitCharsComma_ne_nil s.data)
  | cons a t =>
    rw [h] at hg
    cases t with
    | nil =>
      simp only [List.getD_cons_succ, List.getD_nil] at hg
      simp [← hg]
    | cons b t2 =>
      simp only [List.getD_cons_succ, List.getD_cons_zero] at hg
      simp [hg]

theorem goTrimSpace_of_all_space (s : String)
    (h : ∀ c ∈ s.data, goIsSpace c = true) : goTrimSpace s = "" := by
  unfold goTrimSpace
  have h1 : s.data.dropWhile goIsSpace = [] := by
    rw [List.dropWhile_eq_nil_iff]
    exact fun c hc => h c hc
  rw [h1]
  rfl

theorem goToLower_empty : goToLower "" = "" := rfl

theorem string_append_empty (s : String) : s ++ "" = s := by
  apply String.ext
  rw [String.data_append]
  exact List.append_nil _

theorem parseRow_eq_some (cells : List String) (r : PostcodeResult)
    (hp : parseRow cells = some r) :
    2 ≤ cells.length ∧
    r = ⟨goTrimSpace (cells.getD 0 ""),
         goTrimSpace ((goSplit (goTrimSpace (cells.getD 1 ""))).getD 0 ""),
         if 2 ≤ (goSplit (goTrimSpace (cells.getD 1 ""))).length then
           goTrimSpace ((goSplit (goTrimSpace (cells.getD 1 ""))).getD 1 "")
         else ""⟩ ∧
    r.Postcode ≠ "" ∧ r.Suburb ≠ "" := by
  unfold parseRow at hp
  by_cases hlen : 2 ≤ cells.length
  · rw [if_pos hlen] at hp
    dsimp only at hp
    split at hp
    next hcond =>
      injection hp with hp
      subst hp
      exact ⟨hlen, rfl, hcond.1, hcond.2⟩
    next => exact absurd hp (by simp)
  · rw [if_neg hlen] at hp
    exact absurd hp (by simp)

theorem searchPostcodes_message (keyword : String) (rows : List (List String))
    (hk : keyword ≠ "") (hrec : extractRecords rows = []) :
    searchPostcodes keyword (.response 200 (.parsed rows)) = noResultsMessage keyword := by
  unfold searchPostcodes
  rw [if_neg hk]
  simp only [afterKeywordCheck]
  rw [if_neg (by simp)]
  simp [hrec]

theorem searchPostcodes_non200 (keyword : String) (statusCode : Nat) (doc : HTMLParse)
    (hk : keyword ≠ "") (hs : statusCode ≠ 200) :
    searchPostcodes keyword (.response statusCode doc) =
      "\x7b\"error\": \"Received non-OK HTTP status: " ++ Nat.repr statusCode ++ "\"\x7d" := by
  unfold searchPostcodes
  rw [if_neg hk]
  simp only [afterKeywordCheck]
  rw [if_pos hs]

theorem noResultsMessage_contains_message (keyword : String) :
    containsStr "\"message\"" (noResultsMessage keyword) = true := by
  unfold noResultsMessage
  exact containsStr_append_right _ _ _ (containsStr_append_right _ _ _ (by decide))

theorem noResultsMessage_contains_keyword (keyword : String) :
    containsStr keyword (noResultsMessage keyword) = true := by
  unfold noResultsMessage
  exact containsStr_append_right _ _ _
    (containsStr_append_left _ _ _ (containsStr_self keyword))

theorem postcodeHandler_reduce (keyword : String) (fetch : FetchResult)
    (hk : keyword ≠ "") :
    postcodeHandler (some keyword) fetch =
      ⟨if containsStr "\"error\"" (searchPostcodes keyword fetch) ||
          containsStr "\"message\"" (searchPostcodes keyword fetch)
        then 500 else 200,
       searchPostcodes keyword fetch, true⟩ := by
  simp only [postcodeHandler, Option.getD_some]
  rw [if_neg hk]

theorem postcodeHandler_status_500 (keyword : String) (fetch : FetchResult)
    (hk : keyword ≠ "")
    (h : containsStr "\"error\"" (searchPostcodes keyword fetch) = true ∨
         containsStr "\"message\"" (searchPostcodes keyword fetch) = true) :
    (postcodeHandler (some keyword) fetch).status = 500 := by
  rw [postcodeHandler_reduce keyword fetch hk]
  rcases h with h | h <;> simp [h]

theorem searchPostcodes_error_contains (keyword : String) (fetch : FetchResult)
    (hk : keyword ≠ "") (hns : ¬ extractionSucceeded fetch) :
    containsStr "\"error\"" (searchPostcodes keyword fetch) = true ∨
    containsStr "\"message\"" (searchPostcodes keyword fetch) = true := by
  cases fetch with
  | newRequestFailed e =>
    left
    unfold searchPostcodes
    rw [if_neg hk]
    simp only [afterKeywordCheck]
    exact containsStr_append_right _ _ _ (containsStr_append_right _ _ _ (by decide))
  | doFailed e =>
    left
    unfold searchPostcodes
    rw [if_neg hk]
    simp only [afterKeywordCheck]
    exact containsStr_append_right _ _ _ (containsStr_append_right _ _ _ (by decide))
  | response statusCode doc =>
    by_cases hs : statusCode = 200
    · subst hs
      cases doc with
      | parseFailed e =>
        left
        unfold searchPostcodes
        rw [if_neg hk]
        simp only [afterKeywordCheck]
        rw [if_neg (by simp)]
        exact containsStr_append_right _ _ _ (containsStr_append_right _ _ _ (by decide))
      | parsed rows =>
        have hrec : extractRecords rows = [] := by
          by_contra hne2
          exact hns ⟨rows, rfl, hne2⟩
        right
        rw [searchPostcodes_message keyword rows hk hrec]
        exact noResultsMessage_contains_message keyword
    · left
      rw [searchPostcodes_non200 keyword statusCode doc hk hs]
      exact containsStr_append_right _ _ _ (containsStr_append_right _ _ _ (by decide))

/-- C1 (counterexample): the original claim says the handler responds
HTTP 200 for every successful extraction, including one whose record
field values contain arbitrary text.  It does not: for the keyword
`sydney` and a well-formed table whose data row is
`["2000", "error, NSW"]`, the extraction succeeds with the record
`⟨"2000", "error", "NSW"⟩`, yet the handler responds 500, because the
serialized record list contains the substring `"error"` that the
handler greps for. -/
theorem C1_counterexample :
    extractRecords [["Postcode", "Suburb"], ["2000", "error, NSW"]] =
      [⟨"2000", "error", "NSW"⟩] ∧
    (postcodeHandler (some "sydney")
      (.response 200 (.parsed [["Postcode", "Suburb"], ["2000", "error, NSW"]]))).status
      = 500 := by
  exact ⟨by decide, by decide⟩

/-- C1 (amended): for every request with a non-empty keyword the
handler writes the Extractor's JSON payload verbatim and responds
500 exactly when that payload contains the quoted substring `"error"`
or `"message"`, and 200 otherwise; every error or no-results outcome
does contain one of these substrings and is therefore sent with 500,
but a successful extraction whose serialized records contain one of
them is sent with 500 as well. -/
theorem C1_handler_status_amended (keyword : String) (fetch : FetchResult)
    (hk : keyword ≠ "") :
    (postcodeHandler (some keyword) fetch).body = searchPostcodes keyword fetch ∧
    (postcodeHandler (some keyword) fetch).extractorInvoked = true ∧
    ((postcodeHandler (some keyword) fetch).status = 500 ∨
      (postcodeHandler (some keyword) fetch).status = 200) ∧
    ((postcodeHandler (some keyword) fetch).status = 500 ↔
      (containsStr "\"error\"" (searchPostcodes keyword fetch) ||
        containsStr "\"message\"" (searchPostcodes keyword fetch)) = true) ∧
    (¬ extractionSucceeded fetch → (postcodeHandler (some keyword) fetch).status = 500) := by
  rw [postcodeHandler_reduce keyword fetch hk]
  refine ⟨rfl, rfl, ?_, ?_, ?_⟩
  · dsimp only
    split
    · exact Or.inl rfl
    · exact Or.inr rfl
  · dsimp only
    split
    next hcond => simp [hcond]
    next hcond => simp [Bool.not_eq_true] at hcond; simp [hcond]
  · intro hns
    have := searchPostcodes_error_contains keyword fetch hk hns
    dsimp only
    rcases this with h | h <;> simp [h]

theorem C1_handler_status_amended_witness :
    (postcodeHandler (some "sydney")
        (.response 200 (.parsed [[], ["2000", "SYDNEY, NSW"]]))).body =
      searchPostcodes "sydney" (.response 200 (.parsed [[], ["2000", "SYDNEY, NSW"]])) ∧
    (postcodeHandler (some "sydney")
        (.response 200 (.parsed [[], ["2000", "SYDNEY, NSW"]]))).extractorInvoked = true ∧
    ((postcodeHandler (some "sydney")
        (.response 200 (.parsed [[], ["2000", "SYDNEY, NSW"]]))).status = 500 ∨
      (postcodeHandler (some "sydney")
        (.response 200 (.parsed [[], ["2000", "SYDNEY, NSW"]]))).status = 200) ∧
    ((postcodeHandler (some "sydney")
        (.response 200 (.parsed [[], ["2000", "SYDNEY, NSW"]]))).status = 500 ↔
      (containsStr "\"error\""
          (searchPostcodes "sydney" (.response 200 (.parsed [[], ["2000", "SYDNEY, NSW"]]))) ||
        containsStr "\"message\""
          (searchPostcodes "sydney" (.response 200 (.parsed [[], ["2000", "SYDNEY, NSW"]])))) =
        true) ∧
    (¬ extractionSucceeded (.response 200 (.parsed [[], ["2000", "SYDNEY, NSW"]])) →
      (postcodeHandler (some "sydney")
        (.response 200 (.parsed [[], ["2000", "SYDNEY, NSW"]]))).status = 500) :=
  C1_handler_status_amended "sydney" (.response 200 (.parsed [[], ["2000", "SYDNEY, NSW"]]))
    (by decide)

/-- C2 (counterexample): the original claim says the second cell is
split on the FIRST comma, with state = the trimmed part after the
first comma.  The code splits on every comma and keeps only the
second field, so for the cell `"A, B, C"` the produced state is `"B"`
and not `"B, C"`, the trimmed part after the first comma. -/
theorem C2_counterexample :
    parseRow ["2000", "A, B, C"] = some ⟨"2000", "A", "B"⟩ ∧
    goTrimSpace (textAfterFirstComma (goTrimSpace "A, B, C")) = "B, C" ∧
    parseRow ["2000", "A, B, C"] ≠
      some ⟨"2000", "A", goTrimSpace (textAfterFirstComma (goTrimSpace "A, B, C"))⟩ := by
  exact ⟨by decide, by decide, by decide⟩

/-- C2 (amended): for every table row with at least 2 data cells that
produces a record, postcode = the trimmed text of cell 0, suburb =
the trimmed text of cell 1 before its first comma, and state = the
trimmed text of cell 1 between its first and second comma (the
second comma-separated field) — not everything after the first
comma; when cell 1 has no comma, state = `""` (and suburb is the
full trimmed text, the no-comma case of `textUpToFirstComma`). -/
theorem C2_row_parsing_amended (c0 c1 : String) (rest : List String)
    (r : PostcodeResult) (hp : parseRow (c0 :: c1 :: rest) = some r) :
    r.Postcode = goTrimSpace c0 ∧
    r.Suburb = goTrimSpace (textUpToFirstComma (goTrimSpace c1)) ∧
    r.State = (if ',' ∈ (goTrimSpace c1).data then
        goTrimSpace (textUpToFirstComma (textAfterFirstComma (goTrimSpace c1)))
      else "") := by
  obtain ⟨-, hr, -, -⟩ := parseRow_eq_some _ r hp
  subst hr
  refine ⟨rfl, ?_, ?_⟩
  · show goTrimSpace ((goSplit (goTrimSpace c1)).getD 0 "") = _
    rw [goSplit_getD_zero]
  · show (if 2 ≤ (goSplit (goTrimSpace c1)).length then
        goTrimSpace ((goSplit (goTrimSpace c1)).getD 1 "") else "") = _
    rw [goSplit_getD_one]
    exact if_congr
      (by rw [goSplit_length_eq]; exact goSplitCharsComma_two_le_iff _) rfl rfl

theorem C2_row_parsing_amended_witness :
    (⟨"2055", "NORTH SYDNEY", "NSW"⟩ : PostcodeResult).Postcode = goTrimSpace "2055" ∧
    (⟨"2055", "NORTH SYDNEY", "NSW"⟩ : PostcodeResult).Suburb =
      goTrimSpace (textUpToFirstComma (goTrimSpace "NORTH SYDNEY, NSW")) ∧
    (⟨"2055", "NORTH SYDNEY", "NSW"⟩ : PostcodeResult).State =
      (if ',' ∈ (goTrimSpace "NORTH SYDNEY, NSW").data then
        goTrimSpace (textUpToFirstComma (textAfterFirstComma (goTrimSpace "NORTH SYDNEY, NSW")))
      else "") :=
  C2_row_parsing_amended "2055" "NORTH SYDNEY, NSW" []
    ⟨"2055", "NORTH SYDNEY", "NSW"⟩ (by decide)

/-- C3: every record in the output of an extraction has a non-empty
postcode and a non-empty suburb, and a row with at least 2 cells
whose trimmed postcode or trimmed suburb is empty yields no record;
the state field is not constrained (the witness exhibits an included
record whose state is empty). -/
theorem C3_record_invariant :
    (∀ rows r, r ∈ extractRecords rows → r.Postcode ≠ "" ∧ r.Suburb ≠ "") ∧
    (∀ cells : List String, 2 ≤ cells.length →
      (goTrimSpace (cells.getD 0 "") = "" ∨
        goTrimSpace ((goSplit (goTrimSpace (cells.getD 1 ""))).getD 0 "") = "") →
      parseRow cells = none) := by
  constructor
  · intro rows r hr
    cases rows with
    | nil => simp [extractRecords] at hr
    | cons hd rest =>
      simp only [extractRecords] at hr
      rw [List.mem_filterMap] at hr
      obtain ⟨cells, -, hp⟩ := hr
      exact (parseRow_eq_some cells r hp).2.2
  · intro cells hlen hdisj
    cases hp : parseRow cells with
    | none => rfl
    | some r =>
      obtain ⟨-, hr, hpc, hsb⟩ := parseRow_eq_some cells r hp
      rcases hdisj with hd | hd
      · exact absurd (by rw [hr]; exact hd) hpc
      · exact absurd (by rw [hr]; exact hd) hsb

theorem C3_record_invariant_witness :
    ((⟨"2000", "SYDNEY", ""⟩ : PostcodeResult).Postcode ≠ "" ∧
      (⟨"2000", "SYDNEY", ""⟩ : PostcodeResult).Suburb ≠ "") ∧
    (⟨"2000", "SYDNEY", ""⟩ : PostcodeResult) ∈ extractRecords [[], ["2000", "SYDNEY"]] ∧
    (⟨"2000", "SYDNEY", ""⟩ : PostcodeResult).State = "" :=
  ⟨C3_record_invariant.1 [[], ["2000", "SYDNEY"]] ⟨"2000", "SYDNEY", ""⟩ (by decide),
   by decide, rfl⟩

/-- C4: for a request whose `keyword` query parameter is absent or is
the empty string, the handler responds 400 with a JSON body carrying
an `error` field, and `searchPostcodes` is not invoked. -/
theorem C4_missing_keyword (fetch : FetchResult) :
    postcodeHandler none fetch = ⟨400, missingKeywordBody, false⟩ ∧
    postcodeHandler (some "") fetch = ⟨400, missingKeywordBody, false⟩ ∧
    containsStr "\"error\":" missingKeywordBody = true :=
  ⟨rfl, rfl, by decide⟩

/-- C5: whenever the parsed table yields zero qualifying rows —
including when the selector matches no rows at all, i.e. `rows = []`
— the Extractor returns the no-results message object (a `message`
field referencing the original keyword), not an `error` object, and
the handler's status is 500.  The witness instantiates the
selector-misses-everything case `rows = []`. -/
theorem C5_empty_result (keyword : String) (rows : List (List String))
    (hk : keyword ≠ "") (hrec : extractRecords rows = []) :
    searchPostcodes keyword (.response 200 (.parsed rows)) = noResultsMessage keyword ∧
    containsStr "\"message\"" (noResultsMessage keyword) = true ∧
    containsStr keyword (noResultsMessage keyword) = true ∧
    (postcodeHandler (some keyword) (.response 200 (.parsed rows))).status = 500 := by
  have hout := searchPostcodes_message keyword rows hk hrec
  refine ⟨hout, noResultsMessage_contains_message keyword,
    noResultsMessage_contains_keyword keyword, ?_⟩
  apply postcodeHandler_status_500 keyword _ hk
  right
  rw [hout]
  exact noResultsMessage_contains_message keyword

theorem C5_empty_result_witness :
    searchPostcodes "perth" (.response 200 (.parsed [])) = noResultsMessage "perth" ∧
    containsStr "\"message\"" (noResultsMessage "perth") = true ∧
    containsStr "perth" (noResultsMessage "perth") = true ∧
    (postcodeHandler (some "perth") (.response 200 (.parsed []))).status = 500 :=
  C5_empty_result "perth" [] (by decide) (by decide)

/-- C6: whenever the upstream fetch returns a status other than 200,
the Extractor returns the `error` object describing the status code
— for every response body, so no rows are parsed — and the handler's
status is 500. -/
theorem C6_non_ok_status (keyword : String) (statusCode : Nat) (doc : HTMLParse)
    (hk : keyword ≠ "") (hs : statusCode ≠ 200) :
    searchPostcodes keyword (.response statusCode doc) =
      "\x7b\"error\": \"Received non-OK HTTP status: " ++ Nat.repr statusCode ++ "\"\x7d" ∧
    (∀ doc2 : HTMLParse,
      searchPostcodes keyword (.response statusCode doc2) =
        searchPostcodes keyword (.response statusCode doc)) ∧
    (postcodeHandler (some keyword) (.response statusCode doc)).status = 500 := by
  have hout := searchPostcodes_non200 keyword statusCode doc hk hs
  refine ⟨hout, ?_, ?_⟩
  · intro doc2
    rw [hout, searchPostcodes_non200 keyword statusCode doc2 hk hs]
  · apply postcodeHandler_status_500 keyword _ hk
    left
    rw [hout]
    exact containsStr_append_right _ _ _ (containsStr_append_right _ _ _ (by decide))

theorem C6_non_ok_status_witness :
    searchPostcodes "sydney" (.response 404 (.parsed [])) =
      "\x7b\"error\": \"Received non-OK HTTP status: " ++ Nat.repr 404 ++ "\"\x7d" ∧
    (∀ doc2 : HTMLParse,
      searchPostcodes "sydney" (.response 404 doc2) =
        searchPostcodes "sydney" (.response 404 (.parsed []))) ∧
    (postcodeHandler (some "sydney") (.response 404 (.parsed []))).status = 500 :=
  C6_non_ok_status "sydney" 404 (.parsed []) (by decide) (by decide)

/-- C7: a non-header row with fewer than 2 data cells produces no
record, and removing it from the table leaves the extraction of all
other rows unchanged — the malformed row is silently skipped and the
extraction does not fail. -/
theorem C7_short_row_skipped (r0 c : List String) (l1 l2 : List (List String))
    (h : c.length < 2) :
    parseRow c = none ∧
    extractRecords (r0 :: (l1 ++ c :: l2)) = extractRecords (r0 :: (l1 ++ l2)) := by
  have hnone : parseRow c = none := by
    unfold parseRow
    rw [if_neg (by omega)]
  refine ⟨hnone, ?_⟩
  show (l1 ++ c :: l2).filterMap parseRow = (l1 ++ l2).filterMap parseRow
  rw [List.filterMap_append, List.filterMap_append, List.filterMap_cons, hnone]

theorem C7_short_row_skipped_witness :
    parseRow ["9999"] = none ∧
    extractRecords ([] :: ([] ++ ["9999"] :: [["2000", "SYDNEY, NSW"]])) =
      extractRecords ([] :: ([] ++ [["2000", "SYDNEY, NSW"]])) :=
  C7_short_row_skipped [] ["9999"] [] [["2000", "SYDNEY, NSW"]] (by decide)

/-- C8: the first row matched by the table selector (the header row)
never contributes a record: the extraction only filters the tail,
and its result does not depend on the header row's content at all. -/
theorem C8_header_skipped (hd hd2 : List String) (rest : List (List String)) :
    extractRecords (hd :: rest) = rest.filterMap parseRow ∧
    extractRecords (hd :: rest) = extractRecords (hd2 :: rest) :=
  ⟨rfl, rfl⟩

/-- C9: a keyword made only of white space is rejected by neither
emptiness check (the handler invokes the Extractor and
`searchPostcodes` passes its empty-keyword guard and proceeds to the
fetch), and the target URL is the base URL with the empty normalized
keyword appended, since trimming reduces the keyword to `""`. -/
theorem C9_whitespace_keyword (keyword : String) (fetch : FetchResult)
    (hne : keyword ≠ "") (hsp : ∀ c ∈ keyword.data, goIsSpace c = true) :
    (postcodeHandler (some keyword) fetch).extractorInvoked = true ∧
    searchPostcodes keyword fetch = afterKeywordCheck keyword fetch ∧
    targetURL keyword = BASE_URL := by
  refine ⟨?_, ?_, ?_⟩
  · rw [postcodeHandler_reduce keyword fetch hne]
  · unfold searchPostcodes
    rw [if_neg hne]
  · unfold targetURL
    rw [goTrimSpace_of_all_space keyword hsp, goToLower_empty, string_append_empty]

theorem C9_whitespace_keyword_witness :
    (postcodeHandler (some "   ") (.response 200 (.parsed []))).extractorInvoked = true ∧
    searchPostcodes "   " (.response 200 (.parsed [])) =
      afterKeywordCheck "   " (.response 200 (.parsed [])) ∧
    targetURL "   " = BASE_URL :=
  C9_whitespace_keyword "   " (.response 200 (.parsed [])) (by decide) (by decide)

/-- C10: an extraction that collects zero records returns exactly the
no-results string with the raw keyword spliced in verbatim — no
trimming, lower-casing or JSON escaping is applied to it.  The
witness instantiates a keyword containing a double quote, which is
therefore embedded unescaped. -/
theorem C10_raw_message_body (keyword : String) (rows : List (List String))
    (hk : keyword ≠ "") (hrec : extractRecords rows = []) :
    searchPostcodes keyword (.response 200 (.parsed rows)) =
      "\x7b\"message\": \"No postcodes found for keyword '" ++ keyword ++
        "'. Please verify the CSS selectors.\"\x7d" :=
  searchPostcodes_message keyword rows hk hrec

theorem C10_raw_message_body_witness :
    searchPostcodes "a\"b" (.response 200 (.parsed [])) =
      "\x7b\"message\": \"No postcodes found for keyword '" ++ "a\"b" ++
        "'. Please verify the CSS selectors.\"\x7d" :=
  C10_raw_message_body "a\"b" [] (by decide) (by decide)

end PostcodeScraper
